import Mathlib

/-!
Verification of the core of a terminal hypertext browser (main.go):
HTML-tree text/link/image extraction with line bookkeeping, URL
resolution, and luminance-based ASCII rasterization.

The Go source is embedded shallowly:

* `extractFunc` / `extractContent` embed the recursive extraction
  closure of `extractContent` in main.go; the closure's shared mutable
  `lineCount` is threaded as explicit state, and its `currentLine`
  parameter is kept as a separate argument exactly as in the source.
* `resolveURL` embeds `resolveURL` in main.go; the Go standard library
  functions it calls (`net/url.Parse`, `URL.ResolveReference`,
  `URL.String`) are modelled by `urlParse`, `resolveReference` and
  `GoURL.toString`, translated from the standard library sources
  (simplified: userinfo, percent-escape validation and port validation
  are omitted; none of the inputs used below exercise them).
* `asciiGrid` / `imageToASCII` embed `imageToASCII` in main.go; Go
  float64 arithmetic on luminance is modelled by exact rationals.

String primitives from Go's `strings` package are re-implemented over
character lists (structural recursion) so that every definition
evaluates by kernel reduction.
-/

/-- Model of Go `unicode.IsSpace` restricted to the ASCII whitespace
bytes (space, tab, newline, vertical tab, form feed, carriage return). -/
def goIsSpace (c : Char) : Bool :=
  c = ' ' || c = '\t' || c = '\n' || c = '\x0B' || c = '\x0C' || c = '\r'

/-- Model of Go `strings.TrimSpace`: drop whitespace from both ends. -/
def trimSpace (s : String) : String :=
  String.mk (((s.data.dropWhile goIsSpace).reverse.dropWhile goIsSpace).reverse)

/-- Split a character list at every occurrence of `c`
(model of Go `strings.Split` with a one-character separator). -/
def splitOnChar (c : Char) : List Char → List (List Char)
  | [] => [[]]
  | x :: xs =>
    match splitOnChar c xs with
    | [] => if x = c then [[], []] else [[x]]
    | h :: t => if x = c then [] :: h :: t else (x :: h) :: t

/-- The newline-separated rows of an extraction's text output. -/
def textRows (s : String) : List String :=
  (splitOnChar '\n' s.data).map String.mk

/-- Cut a character list at the first occurrence of `c`:
`some (before, after)` when found. -/
def cutFirstAux (c : Char) : List Char → Option (List Char × List Char)
  | [] => none
  | x :: xs =>
    if x = c then some ([], xs)
    else
      match cutFirstAux c xs with
      | none => none
      | some (b, a) => some (x :: b, a)

/-- Cut a string at the first occurrence of `c`; third component says
whether `c` occurred (model of Go `strings.Cut`). -/
def cutFirst (c : Char) (s : String) : String × String × Bool :=
  match cutFirstAux c s.data with
  | none => (s, "", false)
  | some (b, a) => (String.mk b, String.mk a, true)

/-- Boolean list-prefix test used to model Go `strings.HasPrefix`. -/
def isPrefixList : List Char → List Char → Bool
  | [], _ => true
  | _ :: _, [] => false
  | a :: as, b :: bs => a = b && isPrefixList as bs

/-- Model of Go `strings.HasPrefix s pre`. -/
def strHasPrefix (s pre : String) : Bool :=
  isPrefixList pre.data s.data

/-- Lowercase a string (model of Go `strings.ToLower` on ASCII). -/
def strToLower (s : String) : String :=
  String.mk (s.data.map Char.toLower)

/-- Join a list of strings with `/` separators
(model of Go `strings.Join dst ("/")`). -/
def joinSlash : List String → String
  | [] => ""
  | [s] => s
  | s :: rest => s ++ "/" ++ joinSlash rest

/-- Concatenate a list of strings (models successive writes to a Go
`strings.Builder`). -/
def strJoin : List String → String
  | [] => ""
  | s :: rest => s ++ strJoin rest

/-- Does the string contain a control byte? Model of the
`net/url` control-character rejection in `Parse`. -/
def containsCTL (s : String) : Bool :=
  s.data.any (fun c => c.toNat < 32 || c.toNat = 127)

/-- Model of Go `net/url.URL` restricted to the fields the program can
reach (no userinfo). -/
structure GoURL where
  scheme : String
  opq : String
  host : String
  path : String
  query : String
  fragment : String
deriving Repr, DecidableEq

/-- Model of `net/url`'s `getScheme`: scan for a `scheme:` prefix.
Returns `none` exactly on Go's "missing protocol scheme" error (a colon
at position zero); otherwise `some (scheme, rest)`, with an empty scheme
when the input has no valid scheme prefix. -/
def getSchemeAux (orig : List Char) : List Char → List Char → Option (String × String)
  | [], _ => some ("", String.mk orig)
  | c :: rest, acc =>
    if c.isAlpha then getSchemeAux orig rest (acc ++ [c])
    else if c = ':' then
      if acc = [] then none
      else some (String.mk acc, String.mk rest)
    else if c.isDigit || c = '+' || c = '-' || c = '.' then
      if acc = [] then some ("", String.mk orig)
      else getSchemeAux orig rest (acc ++ [c])
    else some ("", String.mk orig)

/-- Scheme splitter entry point (model of `net/url.getScheme`). -/
def getScheme (s : String) : Option (String × String) :=
  getSchemeAux s.data s.data []

/-- Split `s` at the first `/`, keeping the slash with the remainder
(authority/path split in `net/url.parse`). -/
def splitAtSlash (s : String) : String × String :=
  match cutFirstAux '/' s.data with
  | none => (s, "")
  | some (b, a) => (String.mk b, String.mk ('/' :: a))

/-- Model of Go `net/url.Parse`.  Fails (`none`) on: a control byte in
the URL, a leading colon ("missing protocol scheme"), or a colon in the
first path segment of a schemeless rootless URL.  Userinfo,
percent-escape validation and port validation are omitted. -/
def urlParse (raw : String) : Option GoURL :=
  if containsCTL raw then none
  else
    let cut1 := cutFirst '#' raw
    let rest0 := cut1.1
    let frag := cut1.2.1
    match getScheme rest0 with
    | none => none
    | some (scheme0, rest1) =>
      let scheme := strToLower scheme0
      let cut2 := cutFirst '?' rest1
      let rest2 := cut2.1
      let query := cut2.2.1
      if ¬ strHasPrefix rest2 ("/") then
        if scheme ≠ "" then
          some ⟨scheme, rest2, "", "", query, frag⟩
        else
          let seg := (cutFirst '/' rest2).1
          if seg.data.any (fun c => c = ':') then none
          else some ⟨"", "", "", rest2, query, frag⟩
      else if strHasPrefix rest2 ("//") ∧ (scheme ≠ "" ∨ ¬ strHasPrefix rest2 ("///")) then
        let after := String.mk (rest2.data.drop 2)
        let auth := splitAtSlash after
        some ⟨scheme, "", auth.1, auth.2, query, frag⟩
      else
        some ⟨scheme, "", "", rest2, query, frag⟩

/-- Everything in `base` up to and including its last `/`
(`base[:i+1]` with `i = strings.LastIndex(base, "/")`). -/
def takeToLastSlash (s : String) : String :=
  String.mk ((s.data.reverse.dropWhile (fun c => c ≠ '/')).reverse)

/-- The `.`/`..` segment cleaning loop of `net/url.resolvePath`. -/
def cleanSegs : List String → List String → List String
  | dst, [] => dst
  | dst, e :: rest =>
    if e = "." then cleanSegs dst rest
    else if e = ".." then cleanSegs dst.dropLast rest
    else cleanSegs (dst ++ [e]) rest

/-- Strip one leading slash (model of Go
`strings.TrimPrefix r ("/")`). -/
def trimOneSlash (s : String) : String :=
  if strHasPrefix s ("/") then String.mk (s.data.drop 1) else s

/-- Model of Go `net/url.resolvePath`: merge `ref` onto `base` and
remove `.`/`..` segments. -/
def resolvePath (base ref : String) : String :=
  let full :=
    if ref = "" then base
    else if ¬ strHasPrefix ref ("/") then takeToLastSlash base ++ ref
    else ref
  if full = "" then ""
  else
    let src := (splitOnChar '/' full.data).map String.mk
    let dst := cleanSegs [] src
    let dst2 := if src.getLastD ("") = "." ∨ src.getLastD ("") = ".." then dst ++ [""] else dst
    "/" ++ trimOneSlash (joinSlash dst2)

/-- Model of Go `net/url.URL.ResolveReference` (without userinfo):
RFC 3986 §5.3 reference resolution as implemented by the standard
library. -/
def resolveReference (u ref : GoURL) : GoURL :=
  let scheme := if ref.scheme = "" then u.scheme else ref.scheme
  if ref.scheme ≠ "" ∨ ref.host ≠ "" then
    { scheme := scheme, opq := ref.opq, host := ref.host,
      path := resolvePath ref.path "", query := ref.query, fragment := ref.fragment }
  else if ref.opq ≠ "" then
    { scheme := scheme, opq := ref.opq, host := "", path := "",
      query := ref.query, fragment := ref.fragment }
  else
    let q := if ref.path = "" ∧ ref.query = "" then u.query else ref.query
    let f := if ref.path = "" ∧ ref.query = "" ∧ ref.fragment = "" then u.fragment else ref.fragment
    { scheme := scheme, opq := "", host := u.host,
      path := resolvePath u.path ref.path, query := q, fragment := f }

/-- Does the first path segment contain a colon? (used by
`URL.String` to decide whether to prepend `./`). -/
def colonInFirstSeg (p : String) : Bool :=
  ((cutFirst '/' p).1).data.any (fun c => c = ':')

/-- Model of Go `net/url.URL.String` (without userinfo). -/
def GoURL.toString (u : GoURL) : String :=
  let pre := if u.scheme = "" then "" else u.scheme ++ ":"
  let core :=
    if u.opq ≠ "" then pre ++ u.opq
    else
      let authPart :=
        if (u.scheme ≠ "" ∨ u.host ≠ "") ∧ (u.host ≠ "" ∨ u.path ≠ "") then "//" ++ u.host
        else ""
      let b := pre ++ authPart
      let b2 := if u.path ≠ "" ∧ ¬ strHasPrefix u.path ("/") ∧ u.host ≠ "" then b ++ "/" else b
      let b3 := if b2 = "" ∧ colonInFirstSeg u.path then b2 ++ "./" else b2
      b3 ++ u.path
  let c1 := if u.query ≠ "" then core ++ "?" ++ u.query else core
  if u.fragment ≠ "" then c1 ++ "#" ++ u.fragment else c1

/-- Embedding of `resolveURL` from main.go: parse both URLs, return the
reference unchanged if either parse fails, otherwise resolve and
stringify. -/
def resolveURL (baseURL linkHref : String) : String :=
  match urlParse baseURL with
  | none => linkHref
  | some base =>
    match urlParse linkHref with
    | none => linkHref
    | some link => (resolveReference base link).toString

/-- Embedding of `LinkInfo` from main.go.  `Line` is `int` in Go but is
only ever `0` or incremented, so `Nat` is faithful. -/
structure LinkInfo where
  Text : String
  Href : String
  Line : Nat
deriving Repr, DecidableEq

/-- Embedding of `ImageInfo` from main.go. -/
structure ImageInfo where
  Src : String
  Alt : String
deriving Repr, DecidableEq

/-- The value of one call of the Go closure `extractFunc`, together
with the value of the shared mutable `lineCount` after the call. -/
structure ExtractResult where
  text : String
  links : List LinkInfo
  images : List ImageInfo
  lineCount : Nat
deriving Repr, DecidableEq

mutual
/-- Embedding of `golang.org/x/net/html.Node` restricted to the node
shapes reachable inside a parsed body: text nodes and element nodes
with attributes and children.  Element and text constructors cover the
`html.TextNode` / `html.ElementNode` cases of the source; other node
types behave in the source exactly like an element with an unknown tag. -/
inductive GoNode : Type where
  | text : String → GoNode
  | elem : String → List (String × String) → GoForest → GoNode
deriving Repr, DecidableEq

/-- A sibling list of nodes (`FirstChild`/`NextSibling` chain). -/
inductive GoForest : Type where
  | nil : GoForest
  | cons : GoNode → GoForest → GoForest
deriving Repr, DecidableEq
end

/-- Model of a Go attribute-reading loop `for _, attr := range n.Attr`
that overwrites `acc` whenever `attr.Key == key` (the last occurrence
wins, as in the source's `href`/`src`/`alt` loops). -/
def lastAttr (key acc : String) : List (String × String) → String
  | [] => acc
  | (k, v) :: rest => lastAttr key (if k = key then v else acc) rest

mutual
/-- Embedding of the recursive closure `extractFunc` in main.go.
`cl` is the `currentLine` parameter; `lc` is the value of the shared
mutable `lineCount` on entry, returned updated in the result. -/
def extractFunc (url : String) : GoNode → Nat → Nat → ExtractResult
  | GoNode.text d, _, lc =>
    let t := trimSpace d
    if t = "" then ⟨"", [], [], lc⟩ else ⟨t ++ "\n", [], [], lc + 1⟩
  | GoNode.elem tag attrs cs, cl, lc =>
    if tag = "script" ∨ tag = "style" then ⟨"", [], [], lc⟩
    else if tag = "a" then
      let linkHref := lastAttr ("href") ("") attrs
      let pre := extractAnchorText url cs cl lc
      let linkText := trimSpace pre.1
      if linkText ≠ "" ∧ linkHref ≠ "" then
        ⟨linkText ++ " ", [⟨linkText, resolveURL url linkHref, cl⟩], [], pre.2⟩
      else
        extractChildren url cs pre.2
    else if tag = "img" then
      let src := lastAttr ("src") ("") attrs
      let alt := lastAttr ("alt") ("") attrs
      if src ≠ "" then ⟨alt ++ " ", [], [⟨resolveURL url src, alt⟩], lc⟩
      else extractChildren url cs lc
    else extractChildren url cs lc

/-- Embedding of the generic child loop at the bottom of `extractFunc`:
each child is called with the *current* `lineCount` as its
`currentLine`, and text/link/image outputs are concatenated in order. -/
def extractChildren (url : String) : GoForest → Nat → ExtractResult
  | GoForest.nil, lc => ⟨"", [], [], lc⟩
  | GoForest.cons c cs, lc =>
    let r1 := extractFunc url c lc lc
    let r2 := extractChildren url cs r1.lineCount
    ⟨r1.text ++ r2.text, r1.links ++ r2.links, r1.images ++ r2.images, r2.lineCount⟩

/-- Embedding of the anchor pre-walk in `extractFunc` (the loop that
builds `linkText`): children are called with the anchor's own
`currentLine`, their links and images are discarded, but the shared
`lineCount` still advances. -/
def extractAnchorText (url : String) : GoForest → Nat → Nat → String × Nat
  | GoForest.nil, _, lc => ("", lc)
  | GoForest.cons c cs, cl, lc =>
    let r1 := extractFunc url c cl lc
    let r2 := extractAnchorText url cs cl r1.lineCount
    (r1.text ++ r2.1, r2.2)
end

/-- Embedding of `extractContent` in main.go: run the closure on the
root with `currentLine = 0` and `lineCount = 0` and drop the final
counter. -/
def extractContent (node : GoNode) (currentURL : String) :
    String × List LinkInfo × List ImageInfo :=
  let r := extractFunc currentURL node 0 0
  (r.text, r.links, r.images)

/-- Embedding of `asciiChars` from main.go: the 10-character luminance
ramp from sparse to dense. -/
def asciiChars : List String :=
  [" ", ".", ":", "-", "=", "+", "*", "#", "%", "@"]

/-- Model of a decoded Go image: its bounds sizes `Dx`/`Dy` and the
`At(x, y).RGBA()` accessor.  `RGBA` yields the red, green and blue
channels (alpha is discarded by the source); the `color.Color` contract
puts each channel in `[0, 0xffff]`. -/
structure GoImage where
  Dx : Nat
  Dy : Nat
  RGBA : Nat → Nat → Nat × Nat × Nat

/-- The luminance of one pixel as computed in `imageToASCII`:
`(0.299*r + 0.587*g + 0.114*b) / 65535.0`, with the float64 arithmetic
modelled by exact rationals. -/
def brightnessQ (r g b : Nat) : ℚ :=
  (299 * r + 587 * g + 114 * b : ℚ) / 65535000

/-- The ramp index of one pixel:
`int(brightness * float64(len(asciiChars)-1))`.  The float-to-int
conversion truncates toward zero; brightness is non-negative, so this
is the floor. -/
def charIndex (r g b : Nat) : Nat :=
  (Rat.floor (brightnessQ r g b * (asciiChars.length - 1 : Nat))).toNat

/-- One output cell of the rasterizer: nearest-neighbour sample at
`(x*Dx/80, y*Dy/height)`, then the ramp character of its luminance. -/
def asciiCell (img : GoImage) (height y x : Nat) : String :=
  let origX := x * img.Dx / 80
  let origY := y * img.Dy / height
  let rgb := img.RGBA origX origY
  asciiChars.getD (charIndex rgb.1 rgb.2.1 rgb.2.2) ("")

/-- The rasterizer's output grid: the double loop of `imageToASCII`
with `width = 80` and `height = width * Dy / Dx` (integer division). -/
def asciiGrid (img : GoImage) : List (List String) :=
  (List.range (80 * img.Dy / img.Dx)).map
    (fun y => (List.range 80).map (asciiCell img (80 * img.Dy / img.Dx) y))

/-- Embedding of `imageToASCII` from main.go (after decoding): each
grid row is written followed by a newline. -/
def imageToASCII (img : GoImage) : String :=
  strJoin ((asciiGrid img).map (fun row => strJoin row ++ "\n"))

/-- Links listed with non-decreasing line numbers, all between `lo` and
`hi` (the extraction line-counter interval that produced them). -/
def linesBetween (lo hi : Nat) (ls : List LinkInfo) : Prop :=
  List.Pairwise (fun a b => a.Line ≤ b.Line) ls ∧ ∀ l ∈ ls, lo ≤ l.Line ∧ l.Line ≤ hi

/-- A one-node forest. -/
def forest1 (n : GoNode) : GoForest := GoForest.cons n GoForest.nil

/-- A two-node forest. -/
def forest2 (m n : GoNode) : GoForest := GoForest.cons m (GoForest.cons n GoForest.nil)

/-- Children of the anchor without an href: a single text node. -/
def c1Kids : GoForest := forest1 (GoNode.text ("hi"))

/-- Document for claim C1: `<body><a>hi</a><a href="u">go</a></body>`.
The first anchor has a non-empty text but no href. -/
def c1doc : GoNode :=
  GoNode.elem ("body") []
    (forest2 (GoNode.elem ("a") [] c1Kids)
      (GoNode.elem ("a") [(("href"), ("u"))] (forest1 (GoNode.text ("go")))))

/-- The scenario document of claim C2:
`<body><p>Hello</p><a href="/x">link</a><img src="i.png" alt="pic"></body>`. -/
def c2doc : GoNode :=
  GoNode.elem ("body") []
    (GoForest.cons (GoNode.elem ("p") [] (forest1 (GoNode.text ("Hello"))))
    (GoForest.cons (GoNode.elem ("a") [(("href"), ("/x"))] (forest1 (GoNode.text ("link"))))
    (GoForest.cons (GoNode.elem ("img") [(("src"), ("i.png")), (("alt"), ("pic"))] GoForest.nil)
    GoForest.nil)))

/-- Document for claim C3: `<body><a>x1</a><a href="y">B</a></body>`. -/
def c3doc : GoNode :=
  GoNode.elem ("body") []
    (forest2 (GoNode.elem ("a") [] (forest1 (GoNode.text ("x1"))))
      (GoNode.elem ("a") [(("href"), ("y"))] (forest1 (GoNode.text ("B")))))

/-- Children used by the witness of the amended claim C3. -/
def c3Kids : GoForest := forest1 (GoNode.text ("go")) 

/-- Document for claim C9: `<body><a href="#">z</a></body>` extracted
with the empty base URL. -/
def c9doc : GoNode :=
  GoNode.elem ("body") [] (forest1 (GoNode.elem ("a") [(("href"), ("#"))] (forest1 (GoNode.text ("z")))))

/-- A concrete 2-by-2 image used by the rasterizer witnesses:
black and white pixels in checkerboard order. -/
def img22 : GoImage :=
  ⟨2, 2, fun x y => if (x + y) % 2 = 0 then (0, 0, 0) else (65535, 65535, 65535)⟩

/-- The `FloorRing` floor on `ℚ` is the computable `Rat.floor` used in
`charIndex`. -/
theorem ratFloor_eq_intFloor (q : ℚ) : Rat.floor q = ⌊q⌋ := rfl

mutual
/-- The shared `lineCount` never decreases across a call of the
extraction closure. -/
theorem extractFunc_lc_le (url : String) : ∀ (n : GoNode) (cl lc : Nat),
    lc ≤ (extractFunc url n cl lc).lineCount
  | GoNode.text d, _, lc => by
    simp only [extractFunc]
    split <;> simp
  | GoNode.elem tag attrs cs, cl, lc => by
    simp only [extractFunc]
    split
    · exact Nat.le_refl lc
    split
    · split
      · exact extractAnchorText_lc_le url cs cl lc
      · exact Nat.le_trans (extractAnchorText_lc_le url cs cl lc)
          (extractChildren_lc_le url cs (extractAnchorText url cs cl lc).2)
    split
    · split
      · exact Nat.le_refl lc
      · exact extractChildren_lc_le url cs lc
    · exact extractChildren_lc_le url cs lc

/-- The shared `lineCount` never decreases across the generic child
loop. -/
theorem extractChildren_lc_le (url : String) : ∀ (cs : GoForest) (lc : Nat),
    lc ≤ (extractChildren url cs lc).lineCount
  | GoForest.nil, lc => Nat.le_refl lc
  | GoForest.cons c cs, lc =>
    Nat.le_trans (extractFunc_lc_le url c lc lc)
      (extractChildren_lc_le url cs (extractFunc url c lc lc).lineCount)

/-- The shared `lineCount` never decreases across the anchor pre-walk. -/
theorem extractAnchorText_lc_le (url : String) : ∀ (cs : GoForest) (cl lc : Nat),
    lc ≤ (extractAnchorText url cs cl lc).2
  | GoForest.nil, _, lc => Nat.le_refl lc
  | GoForest.cons c cs, cl, lc =>
    Nat.le_trans (extractFunc_lc_le url c cl lc)
      (extractAnchorText_lc_le url cs cl (extractFunc url c cl lc).lineCount)
end

/-- Weaken the counter interval of a `linesBetween` fact. -/
theorem linesBetween_weaken {lo lo' hi hi' : Nat} {ls : List LinkInfo}
    (h : linesBetween lo' hi' ls) (h1 : lo ≤ lo') (h2 : hi' ≤ hi) :
    linesBetween lo hi ls := by
  refine ⟨h.1, fun l hl => ?_⟩
  have := h.2 l hl
  omega

/-- Concatenating link runs over adjacent counter intervals keeps line
numbers sorted. -/
theorem linesBetween_append {lo mid hi : Nat} {l1 l2 : List LinkInfo}
    (h1 : linesBetween lo mid l1) (h2 : linesBetween mid hi l2)
    (hlm : lo ≤ mid) (hmh : mid ≤ hi) :
    linesBetween lo hi (l1 ++ l2) := by
  refine ⟨?_, fun l hl => ?_⟩
  · rw [List.pairwise_append]
    refine ⟨h1.1, h2.1, fun a ha b hb => ?_⟩
    have := (h1.2 a ha).2
    have := (h2.2 b hb).1
    omega
  · rcases List.mem_append.1 hl with h | h
    · have := h1.2 l h; omega
    · have := h2.2 l h; omega

mutual
/-- Links produced by one closure call (entered with
`currentLine = lineCount`) carry sorted line numbers inside the call's
counter interval. -/
theorem extractFunc_linesBetween (url : String) : ∀ (n : GoNode) (lc : Nat),
    linesBetween lc (extractFunc url n lc lc).lineCount (extractFunc url n lc lc).links
  | GoNode.text _, lc => by
    simp only [extractFunc]
    split <;> exact ⟨List.Pairwise.nil, by simp⟩
  | GoNode.elem tag attrs cs, lc => by
    simp only [extractFunc]
    split
    · exact ⟨List.Pairwise.nil, by simp⟩
    split
    · split
      · refine ⟨List.pairwise_singleton _ _, fun l hl => ?_⟩
        simp only [List.mem_singleton] at hl
        subst hl
        exact ⟨Nat.le_refl lc, extractAnchorText_lc_le url cs lc lc⟩
      · exact linesBetween_weaken
          (extractChildren_linesBetween url cs (extractAnchorText url cs lc lc).2)
          (extractAnchorText_lc_le url cs lc lc) (Nat.le_refl _)
    split
    · split
      · exact ⟨List.Pairwise.nil, by simp⟩
      · exact extractChildren_linesBetween url cs lc
    · exact extractChildren_linesBetween url cs lc

/-- Links produced by the generic child loop carry sorted line numbers
inside the loop's counter interval. -/
theorem extractChildren_linesBetween (url : String) : ∀ (cs : GoForest) (lc : Nat),
    linesBetween lc (extractChildren url cs lc).lineCount (extractChildren url cs lc).links
  | GoForest.nil, lc => ⟨List.Pairwise.nil, by simp [extractChildren]⟩
  | GoForest.cons c cs, lc => by
    have h1 := extractFunc_linesBetween url c lc
    have h2 := extractChildren_linesBetween url cs (extractFunc url c lc lc).lineCount
    have m1 := extractFunc_lc_le url c lc lc
    have m2 := extractChildren_lc_le url cs (extractFunc url c lc lc).lineCount
    simp only [extractChildren]
    exact linesBetween_append h1 h2 m1 m2
end

/-- The character data of a trimmed string: whitespace dropped from the
front, then from the back. -/
theorem trimSpace_data (s : String) :
    (trimSpace s).data = List.rdropWhile goIsSpace (List.dropWhile goIsSpace s.data) := rfl

/-- Dropping leading whitespace again after a full trim changes
nothing. -/
theorem dropWhile_rdropWhile_dropWhile (p : Char → Bool) (d : List Char) :
    List.dropWhile p (List.rdropWhile p (List.dropWhile p d)) =
      List.rdropWhile p (List.dropWhile p d) := by
  rcases List.rdropWhile_prefix p (List.dropWhile p d) with ⟨t, ht⟩
  rw [List.dropWhile_eq_self_iff]
  intro hl
  have hlen : 0 < (List.dropWhile p d).length := by
    rw [← ht, List.length_append]
    omega
  have hgetzero := List.dropWhile_eq_self_iff.mp (List.dropWhile_idempotent p d) hlen
  have hget : (List.rdropWhile p (List.dropWhile p d)).get ⟨0, hl⟩ =
      (List.dropWhile p d).get ⟨0, hlen⟩ := by
    simp only [List.get_eq_getElem]
    exact List.IsPrefix.getElem ⟨t, ht⟩ hl
  rw [hget]
  exact hgetzero

/-- `trimSpace` is idempotent. -/
theorem trimSpace_idem (s : String) : trimSpace (trimSpace s) = trimSpace s := by
  have h : (trimSpace (trimSpace s)).data = (trimSpace s).data := by
    rw [trimSpace_data, trimSpace_data s, dropWhile_rdropWhile_dropWhile,
      List.rdropWhile_idempotent]
  cases hq : trimSpace (trimSpace s) with
  | mk a =>
    cases hr : trimSpace s with
    | mk b =>
      rw [hq, hr] at h
      simp only at h
      rw [h]

mutual
/-- Every link emitted anywhere inside a closure call has a non-empty,
already-trimmed display text. -/
theorem extractFunc_link_text (url : String) : ∀ (n : GoNode) (cl lc : Nat),
    ∀ l ∈ (extractFunc url n cl lc).links, l.Text ≠ "" ∧ trimSpace l.Text = l.Text
  | GoNode.text d, _, lc => by
    simp only [extractFunc]
    split <;> simp
  | GoNode.elem tag attrs cs, cl, lc => by
    simp only [extractFunc]
    split
    · simp
    split
    · split
      · rename_i hguard
        intro l hl
        simp only [List.mem_singleton] at hl
        subst hl
        exact ⟨hguard.1, trimSpace_idem _⟩
      · exact extractChildren_link_text url cs _
    split
    · split
      · simp
      · exact extractChildren_link_text url cs lc
    · exact extractChildren_link_text url cs lc

/-- Every link emitted by the generic child loop has a non-empty,
already-trimmed display text. -/
theorem extractChildren_link_text (url : String) : ∀ (cs : GoForest) (lc : Nat),
    ∀ l ∈ (extractChildren url cs lc).links, l.Text ≠ "" ∧ trimSpace l.Text = l.Text
  | GoForest.nil, lc => by simp [extractChildren]
  | GoForest.cons c cs, lc => by
    simp only [extractChildren]
    intro l hl
    rcases List.mem_append.1 hl with h | h
    · exact extractFunc_link_text url c lc lc l h
    · exact extractChildren_link_text url cs (extractFunc url c lc lc).lineCount l h
end

/-- C1 counterexample: in `<body><a>hi</a><a href="u">go</a></body>`
(base URL empty), the first anchor has non-empty text but an empty
href.  Contrary to the claim, its child text "hi" appears in the
output, and the line counter is advanced twice by the doubly-walked
text node, so the following link is tagged line 2 instead of 0. -/
theorem c1_counterexample :
    extractContent c1doc ("") = ("hi\ngo ", [⟨"go", "/u", 2⟩], []) ∧
      ("hi\ngo " : String) ≠ ("go ") := by
  constructor
  · decide
  · decide

/-- C1 (amended): an anchor whose trimmed descendant text or whose
href attribute is empty is *not* dropped: after the link-text pre-walk
(which still advances the line counter once per non-empty descendant
text node), the anchor falls through to the generic child loop, so its
children are re-walked and their text, links and images all appear in
the result. -/
theorem c1_anchor_fallthrough (url : String) (attrs : List (String × String))
    (cs : GoForest) (cl lc : Nat)
    (h : trimSpace (extractAnchorText url cs cl lc).1 = "" ∨ lastAttr ("href") ("") attrs = "") :
    extractFunc url (GoNode.elem ("a") attrs cs) cl lc =
      extractChildren url cs (extractAnchorText url cs cl lc).2 := by
  have hguard : ¬(trimSpace (extractAnchorText url cs cl lc).1 ≠ "" ∧
      lastAttr ("href") ("") attrs ≠ "") := by
    rcases h with h | h <;> simp [h]
  simp only [extractFunc]
  rw [if_neg (by decide), if_pos trivial, if_neg hguard]

/-- C1 witness: the fall-through equation at the concrete href-less
anchor `<a>hi</a>`. -/
theorem c1_anchor_fallthrough_witness :
    lastAttr ("href") ("") ([] : List (String × String)) = "" ∧
      extractFunc ("") (GoNode.elem ("a") [] c1Kids) 0 0 =
        extractChildren ("") c1Kids (extractAnchorText ("") c1Kids 0 0).2 :=
  ⟨by decide, c1_anchor_fallthrough ("") [] c1Kids 0 0 (Or.inr (by decide))⟩

/-- C2 counterexample: on the scenario document with base
`https://e.com/page`, the text rows are not exactly
`["Hello", "link pic"]` — the second row carries the trailing space
appended after the image's alt text. -/
theorem c2_counterexample :
    textRows (extractContent c2doc ("https://e.com/page")).1 ≠ [("Hello"), ("link pic")] := by
  decide

/-- C2 (amended): extracting
`<body><p>Hello</p><a href="/x">link</a><img src="i.png" alt="pic"></body>`
with base `https://e.com/page` yields text rows
`["Hello", "link pic "]` (note the trailing space), exactly one link
`{text:"link", href:"https://e.com/x", line:1}` and exactly one image
`{src:"https://e.com/i.png", alt:"pic"}`. -/
theorem c2_scenario_exact :
    extractContent c2doc ("https://e.com/page") =
      ("Hello\nlink pic ", [⟨"link", "https://e.com/x", 1⟩], [⟨"https://e.com/i.png", "pic"⟩]) ∧
      textRows ("Hello\nlink pic ") = [("Hello"), ("link pic ")] := by
  constructor
  · decide
  · decide

/-- C3 counterexample: in `<body><a>x1</a><a href="y">B</a></body>`
(base URL empty) exactly one non-empty text row ("x1") is emitted
before the second anchor is entered, and its own text sits on row
index 1, yet the emitted link carries line 2: the counter counts
text-node *visits* (the href-less anchor's child is visited twice),
not emitted text nodes. -/
theorem c3_counterexample :
    extractContent c3doc ("") = ("x1\nB ", [⟨"B", "/y", 2⟩], []) ∧
      textRows ("x1\nB ") = [("x1"), ("B ")] := by
  constructor
  · decide
  · decide

/-- C3 (amended): a link-emitting anchor entered with the counter at
`lc` emits exactly one link whose `Line` is that entry value `lc` (not
the row its text lands on); the counter value counts text-node visits,
which can exceed the number of text rows emitted before the anchor. -/
theorem c3_link_line_at_entry (url : String) (attrs : List (String × String))
    (cs : GoForest) (lc : Nat)
    (h1 : trimSpace (extractAnchorText url cs lc lc).1 ≠ "")
    (h2 : lastAttr ("href") ("") attrs ≠ "") :
    (extractFunc url (GoNode.elem ("a") attrs cs) lc lc).links =
      [⟨trimSpace (extractAnchorText url cs lc lc).1,
        resolveURL url (lastAttr ("href") ("") attrs), lc⟩] := by
  simp only [extractFunc]
  rw [if_neg (by decide), if_pos trivial, if_pos ⟨h1, h2⟩]

/-- C3 witness: the link-emission equation at the concrete anchor
`<a href="y">go</a>` entered with the counter at 0. -/
theorem c3_link_line_at_entry_witness :
    trimSpace (extractAnchorText ("") c3Kids 0 0).1 ≠ "" ∧
      lastAttr ("href") ("") [(("href"), ("y"))] ≠ "" ∧
      (extractFunc ("") (GoNode.elem ("a") [(("href"), ("y"))] c3Kids) 0 0).links =
        [⟨trimSpace (extractAnchorText ("") c3Kids 0 0).1,
          resolveURL ("") (lastAttr ("href") ("") [(("href"), ("y"))]), 0⟩] :=
  ⟨by decide, by decide,
    c3_link_line_at_entry ("") [(("href"), ("y"))] c3Kids 0 (by decide) (by decide)⟩

/-- C4: `resolveURL` returns the reference unchanged whenever either
parse fails, and otherwise returns the standard reference-resolution
of the reference against the base (as performed by the modelled
`net/url` routines). -/
theorem c4_resolve_contract (base ref : String) :
    (urlParse base = none → resolveURL base ref = ref) ∧
    (urlParse ref = none → resolveURL base ref = ref) ∧
    ∀ b r, urlParse base = some b → urlParse ref = some r →
      resolveURL base ref = GoURL.toString (resolveReference b r) := by
  refine ⟨fun h => by simp [resolveURL, h], fun h => ?_,
    fun b r hb hr => by simp [resolveURL, hb, hr]⟩
  cases hb : urlParse base <;> simp [resolveURL, hb, h]

/-- C4 witness: `":x"` fails to parse ("missing protocol scheme"), so
resolution returns the reference unchanged; on two parsed URLs the
result is the stringified standard resolution. -/
theorem c4_resolve_contract_witness :
    (urlParse (":x") = none ∧ resolveURL (":x") ("y") = "y") ∧
      resolveURL ("https://e.com/page") ("/x") =
        GoURL.toString (resolveReference
          ⟨"https", "", "e.com", "/page", "", ""⟩ ⟨"", "", "", "/x", "", ""⟩) :=
  ⟨⟨by decide, (c4_resolve_contract (":x") ("y")).1 (by decide)⟩,
    (c4_resolve_contract ("https://e.com/page") ("/x")).2.2 _ _ (by decide) (by decide)⟩

/-- C5: for positive source dimensions the rasterizer's grid has
exactly `80 * Dy / Dx` rows (integer truncation) and every row has
exactly 80 cells. -/
theorem c5_grid_dimensions (img : GoImage) (hdx : 0 < img.Dx) (hdy : 0 < img.Dy) :
    (asciiGrid img).length = 80 * img.Dy / img.Dx ∧
      (asciiGrid img).map List.length = List.replicate (80 * img.Dy / img.Dx) 80 := by
  constructor
  · simp [asciiGrid]
  · simp [asciiGrid, List.map_map, Function.comp_def]

/-- C5 witness: the grid dimensions of the concrete 2-by-2 test image
(80 rows of 80 cells). -/
theorem c5_grid_dimensions_witness :
    0 < img22.Dx ∧ 0 < img22.Dy ∧
      ((asciiGrid img22).length = 80 * img22.Dy / img22.Dx ∧
        (asciiGrid img22).map List.length = List.replicate (80 * img22.Dy / img22.Dx) 80) :=
  ⟨by decide, by decide, c5_grid_dimensions img22 (by decide) (by decide)⟩

/-- C6: the luminance-to-ramp mapping is monotone — strictly larger
computed luminance never yields a smaller ramp index. -/
theorem c6_ramp_monotone (r1 g1 b1 r2 g2 b2 : Nat)
    (h : brightnessQ r1 g1 b1 < brightnessQ r2 g2 b2) :
    charIndex r1 g1 b1 ≤ charIndex r2 g2 b2 := by
  unfold charIndex
  rw [ratFloor_eq_intFloor, ratFloor_eq_intFloor]
  exact Int.toNat_le_toNat (Int.floor_le_floor (mul_le_mul_of_nonneg_right h.le (by positivity)))

/-- C6 witness: monotonicity applied to an all-black and an all-white
pixel. -/
theorem c6_ramp_monotone_witness :
    brightnessQ 0 0 0 < brightnessQ 65535 65535 65535 ∧
      charIndex 0 0 0 ≤ charIndex 65535 65535 65535 :=
  ⟨by norm_num [brightnessQ],
    c6_ramp_monotone 0 0 0 65535 65535 65535 (by norm_num [brightnessQ])⟩

/-- C8: for channel values in the accessor's native range
`[0, 65535]`, the ramp index is at most 9, hence strictly below the
ramp length 10 — character selection cannot go out of bounds. -/
theorem c8_ramp_index_safe (r g b : Nat) (hr : r ≤ 65535) (hg : g ≤ 65535) (hb : b ≤ 65535) :
    charIndex r g b ≤ 9 ∧ charIndex r g b < asciiChars.length := by
  have hq : brightnessQ r g b ≤ 1 := by
    rw [brightnessQ, div_le_one (by norm_num)]
    have hr' : (r : ℚ) ≤ 65535 := by exact_mod_cast hr
    have hg' : (g : ℚ) ≤ 65535 := by exact_mod_cast hg
    have hb' : (b : ℚ) ≤ 65535 := by exact_mod_cast hb
    linarith
  have hnine : ((asciiChars.length - 1 : Nat) : ℚ) = 9 := by norm_num [asciiChars]
  have h9 : brightnessQ r g b * (asciiChars.length - 1 : Nat) ≤ 9 := by
    rw [hnine]
    calc brightnessQ r g b * 9 ≤ 1 * 9 := mul_le_mul_of_nonneg_right hq (by norm_num)
      _ = 9 := by norm_num
  have hfl : charIndex r g b ≤ 9 := by
    rw [charIndex, ratFloor_eq_intFloor]
    refine Int.toNat_le.mpr ?_
    calc ⌊brightnessQ r g b * (asciiChars.length - 1 : Nat)⌋ ≤ ⌊(9 : ℚ)⌋ :=
          Int.floor_le_floor h9
      _ = 9 := by norm_num
  refine ⟨hfl, ?_⟩
  have hlen : asciiChars.length = 10 := by decide
  omega

/-- C8 witness: the bound applied to the brightest legal pixel. -/
theorem c8_ramp_index_safe_witness :
    ((65535 : Nat) ≤ 65535) ∧
      (charIndex 65535 65535 65535 ≤ 9 ∧ charIndex 65535 65535 65535 < asciiChars.length) :=
  ⟨by decide, c8_ramp_index_safe 65535 65535 65535 (by decide) (by decide) (by decide)⟩

/-- C9 counterexample: `<body><a href="#">z</a></body>` extracted with
the empty base URL emits a link whose resolved `Href` is the empty
string (resolving `"#"` against `""` stringifies to `""`), refuting
the non-empty-href half of the claim. -/
theorem c9_counterexample :
    extractContent c9doc ("") = ("z ", [⟨"z", "", 0⟩], []) ∧
      (⟨"z", "", 0⟩ : LinkInfo).Href = "" := by
  constructor
  · decide
  · decide

/-- C9 (amended): every link in an extraction result has a non-empty
display text that is its own whitespace-trim (the raw href attribute
was non-empty too, but the *resolved* `Href` stored in the link can be
empty). -/
theorem c9_link_nonempty_text (node : GoNode) (url : String) :
    ∀ l ∈ (extractContent node url).2.1, l.Text ≠ "" ∧ trimSpace l.Text = l.Text :=
  fun l hl => extractFunc_link_text url node 0 0 l hl

/-- C9 witness: the text invariant at the concrete link extracted from
`c9doc`. -/
theorem c9_link_nonempty_text_witness :
    (⟨"z", "", 0⟩ : LinkInfo) ∈ (extractContent c9doc ("")).2.1 ∧
      ((⟨"z", "", 0⟩ : LinkInfo).Text ≠ "" ∧
        trimSpace (⟨"z", "", 0⟩ : LinkInfo).Text = (⟨"z", "", 0⟩ : LinkInfo).Text) :=
  ⟨by decide, c9_link_nonempty_text c9doc ("") ⟨"z", "", 0⟩ (by decide)⟩

/-- C10: in every extraction result the links' line numbers are
non-decreasing in list order. -/
theorem c10_link_lines_sorted (node : GoNode) (url : String) :
    List.Pairwise (fun a b => a.Line ≤ b.Line) (extractContent node url).2.1 :=
  (extractFunc_linesBetween url node 0).1
